import Mathlib

/-!
Shallow embedding of the task-list backend (`src/main.py`) of this repository.

The service is a FastAPI façade over a MongoDB-like document store.  Documents
are schemaless, so we model a Python/BSON value as `PyVal`, a document as an
association list of field name to value (preserving insertion order, like a
Python dict), and a collection as an association list of identifier to
document (`_id` is kept as the key of the pair rather than inside the
document).  `datetime` values are abstracted as `Nat` ticks; `datetime.min`
is tick `0` and `datetime.utcnow()` is an explicit `now : Nat` parameter.

`database.py` and `schemas.py` are imported by `src/main.py` but are not part
of `src/`; the definitions taken from them (`create_document`, the document
returned by `get_documents`, the `Task` schema defaults) are marked
`Modelled from the spec:` in their doc comments.
-/

/-- A dynamically typed Python/BSON value as stored in a document. -/
inductive PyVal where
  | vNone
  | vBool (b : Bool)
  | vStr (s : String)
  | vInt (n : Int)
  | vDT (t : Nat)
deriving DecidableEq, Repr

/-- Python truthiness (`bool(v)`): `None`, `False`, `""` and `0` are falsy. -/
def PyVal.truthy : PyVal → Bool
  | .vNone => false
  | .vBool b => b
  | .vStr s => !(s == "")
  | .vInt n => !(n == 0)
  | .vDT _ => true

/-- A document: a Python dict from field names to values, in insertion order. -/
abbrev Doc := List (String × PyVal)

namespace Doc

/-- `d.get k` / `d[k]` lookup on a Python dict. -/
def get? : Doc → String → Option PyVal
  | [], _ => none
  | (k', v') :: rest, k => if k' = k then some v' else get? rest k

/-- `d[k] = v` on a Python dict: replace in place if the key exists,
otherwise append at the end. -/
def set : Doc → String → PyVal → Doc
  | [], k, v => [(k, v)]
  | (k', v') :: rest, k, v =>
      if k' = k then (k, v) :: rest else (k', v') :: set rest k v

/-- Apply a list of key/value assignments in order (MongoDB `$set` document). -/
def setMany (d : Doc) : List (String × PyVal) → Doc
  | [] => d
  | (k, v) :: rest => setMany (d.set k v) rest

/-- `bool(d.get(k, False))`: truthiness of a field, defaulting to falsy. -/
def truthyGet (d : Doc) (k : String) : Bool :=
  match d.get? k with
  | some v => v.truthy
  | none => false

@[simp] theorem get?_nil (k : String) : get? [] k = none := rfl

theorem get?_set_self (d : Doc) (k : String) (v : PyVal) :
    (d.set k v).get? k = some v := by
  induction d with
  | nil => simp [set, get?]
  | cons p rest ih =>
      obtain ⟨k', v'⟩ := p
      by_cases h : k' = k
      · simp [set, h, get?]
      · simp [set, h, get?, ih]

theorem get?_set_ne (d : Doc) (k k' : String) (v : PyVal) (h : k' ≠ k) :
    (d.set k v).get? k' = d.get? k' := by
  induction d with
  | nil => simp [set, get?, Ne.symm h]
  | cons p rest ih =>
      obtain ⟨k₀, v₀⟩ := p
      by_cases h₀ : k₀ = k
      · subst h₀
        rw [set, if_pos rfl, get?, get?, if_neg (Ne.symm h), if_neg (Ne.symm h)]
      · rw [set, if_neg h₀, get?, get?]
        by_cases h₁ : k₀ = k'
        · rw [if_pos h₁, if_pos h₁]
        · rw [if_neg h₁, if_neg h₁, ih]

theorem get?_setMany_not_mem (u : List (String × PyVal)) (d : Doc) (k : String)
    (h : k ∉ u.map Prod.fst) : (d.setMany u).get? k = d.get? k := by
  induction u generalizing d with
  | nil => rfl
  | cons p rest ih =>
      obtain ⟨k₀, v₀⟩ := p
      simp only [List.map_cons, List.mem_cons] at h
      push_neg at h
      rw [setMany, ih _ h.2, get?_set_ne _ _ _ _ h.1]

theorem get?_setMany_mem (u : List (String × PyVal)) (d : Doc) (k : String) (v : PyVal)
    (hnd : (u.map Prod.fst).Nodup) (hm : (k, v) ∈ u) :
    (d.setMany u).get? k = some v := by
  induction u generalizing d with
  | nil => simp at hm
  | cons p rest ih =>
      obtain ⟨k₀, v₀⟩ := p
      simp only [List.map_cons, List.nodup_cons] at hnd
      rcases List.mem_cons.mp hm with heq | hmem
      · injection heq with hk hv
        subst hk; subst hv
        rw [setMany, get?_setMany_not_mem _ _ _ hnd.1, get?_set_self]
      · rw [setMany]
        exact ih _ hnd.2 hmem

theorem set_ne_nil (d : Doc) (k : String) (v : PyVal) : d.set k v ≠ [] := by
  cases d with
  | nil => simp [set]
  | cons p rest =>
      obtain ⟨k', v'⟩ := p
      by_cases h : k' = k <;> simp [set, h]

theorem isEmpty_eq_false_of_get? {d : Doc} {k : String} {v : PyVal}
    (h : d.get? k = some v) : d.isEmpty = false := by
  cases d with
  | nil => simp [get?] at h
  | cons p rest => rfl

end Doc

/-- A store collection: identifier (the stringified `_id`) paired with the
rest of the document.  MongoDB keeps `_id` unique within a collection. -/
abbrev Store := List (String × Doc)

/-- `collection.find_one(match id)`: the first document whose `_id` matches. -/
def findOne : Store → String → Option Doc
  | [], _ => none
  | (j, d) :: rest, i => if j = i then some d else findOne rest i

/-- `collection.update_one(match id, set u)`: apply `$set` to the first
matching document; returns the new store and `matched_count` (0 or 1). -/
def updateOne : Store → String → List (String × PyVal) → Store × Nat
  | [], _, _ => ([], 0)
  | (j, d) :: rest, i, u =>
      if j = i then ((j, d.setMany u) :: rest, 1)
      else
        let r := updateOne rest i u
        ((j, d) :: r.1, r.2)

/-- `collection.delete_one(match id)`: remove the first matching document;
returns the new store and `deleted_count` (0 or 1). -/
def deleteOne : Store → String → Store × Nat
  | [], _ => ([], 0)
  | (j, d) :: rest, i =>
      if j = i then (rest, 1)
      else
        let r := deleteOne rest i
        ((j, d) :: r.1, r.2)

theorem updateOne_of_findOne_none (s : Store) (i : String)
    (u : List (String × PyVal)) (h : findOne s i = none) :
    updateOne s i u = (s, 0) := by
  induction s with
  | nil => rfl
  | cons p rest ih =>
      obtain ⟨j, d⟩ := p
      by_cases hj : j = i
      · simp [findOne, hj] at h
      · simp only [findOne, hj, if_false] at h
        simp [updateOne, hj, ih h]

theorem findOne_updateOne_self (s : Store) (i : String) (u : List (String × PyVal))
    (d : Doc) (h : findOne s i = some d) :
    findOne (updateOne s i u).1 i = some (d.setMany u) ∧ (updateOne s i u).2 = 1 := by
  induction s with
  | nil => simp [findOne] at h
  | cons p rest ih =>
      obtain ⟨j, d'⟩ := p
      by_cases hj : j = i
      · simp only [findOne, hj, if_true, Option.some.injEq] at h
        subst h
        simp [updateOne, hj, findOne]
      · simp only [findOne, hj, if_false] at h
        obtain ⟨ih1, ih2⟩ := ih h
        simp [updateOne, hj, findOne, ih1, ih2]

theorem findOne_updateOne_ne (s : Store) (i j : String) (u : List (String × PyVal))
    (h : j ≠ i) : findOne (updateOne s i u).1 j = findOne s j := by
  induction s with
  | nil => rfl
  | cons p rest ih =>
      obtain ⟨j₀, d⟩ := p
      by_cases hj : j₀ = i
      · subst hj
        simp [updateOne, findOne, Ne.symm h]
      · simp [updateOne, hj, findOne, ih]

theorem deleteOne_of_findOne_none (s : Store) (i : String)
    (h : findOne s i = none) : deleteOne s i = (s, 0) := by
  induction s with
  | nil => rfl
  | cons p rest ih =>
      obtain ⟨j, d⟩ := p
      by_cases hj : j = i
      · simp [findOne, hj] at h
      · simp only [findOne, hj, if_false] at h
        simp [deleteOne, hj, ih h]

theorem deleteOne_count_of_findOne_some (s : Store) (i : String) (d : Doc)
    (h : findOne s i = some d) : (deleteOne s i).2 = 1 := by
  induction s with
  | nil => simp [findOne] at h
  | cons p rest ih =>
      obtain ⟨j, d'⟩ := p
      by_cases hj : j = i
      · simp [deleteOne, hj]
      · simp only [findOne, hj, if_false] at h
        simp [deleteOne, hj, ih h]

theorem mem_map_fst_of_findOne_some {s : Store} {i : String} {d : Doc}
    (h : findOne s i = some d) : i ∈ s.map Prod.fst := by
  induction s with
  | nil => simp [findOne] at h
  | cons p rest ih =>
      obtain ⟨j, d'⟩ := p
      by_cases hj : j = i
      · simp [hj]
      · simp only [findOne, hj, if_false] at h
        simp [ih h]

theorem findOne_deleteOne_self (s : Store) (i : String)
    (hnd : (s.map Prod.fst).Nodup) : findOne (deleteOne s i).1 i = none := by
  induction s with
  | nil => rfl
  | cons p rest ih =>
      obtain ⟨j, d⟩ := p
      simp only [List.map_cons, List.nodup_cons] at hnd
      by_cases hj : j = i
      · subst hj
        rw [deleteOne, if_pos rfl]
        cases hf : findOne rest j with
        | none => rfl
        | some d' => exact absurd (mem_map_fst_of_findOne_some hf) hnd.1
      · simp [deleteOne, hj, findOne, ih hnd.2]

theorem findOne_deleteOne_ne (s : Store) (i j : String) (h : j ≠ i) :
    findOne (deleteOne s i).1 j = findOne s j := by
  induction s with
  | nil => rfl
  | cons p rest ih =>
      obtain ⟨j₀, d⟩ := p
      by_cases hj : j₀ = i
      · subst hj
        simp [deleteOne, findOne, Ne.symm h]
      · simp [deleteOne, hj, findOne, ih]

theorem length_deleteOne_of_findOne_some (s : Store) (i : String) (d : Doc)
    (h : findOne s i = some d) : (deleteOne s i).1.length + 1 = s.length := by
  induction s with
  | nil => simp [findOne] at h
  | cons p rest ih =>
      obtain ⟨j, d'⟩ := p
      by_cases hj : j = i
      · simp [deleteOne, hj]
      · simp only [findOne, hj, if_false] at h
        simp [deleteOne, hj, ih h]

/-! ## Identifier validation, serialization, request models (src/main.py) -/

namespace ObjectId

/-- `bson.ObjectId.is_valid` on a string identifier: a 24-character
hexadecimal string. -/
def is_valid (s : String) : Bool :=
  s.length == 24 && s.data.all (fun c => c.isDigit || ('a' ≤ c && c ≤ 'f') || ('A' ≤ c && c ≤ 'F'))

end ObjectId

/-- `datetime.isoformat`: datetimes are abstracted as `Nat` ticks, so any
injective rendering represents the ISO-8601 string. -/
def isoformat (t : Nat) : String := toString t

/-- The per-field datetime-to-ISO conversion done by `serialize_task`. -/
def convField (k : String) (v : PyVal) : PyVal :=
  if k = "due_date" ∨ k = "created_at" ∨ k = "updated_at" then
    match v with
    | .vDT t => .vStr (isoformat t)
    | v' => v'
  else v

/-- `serialize_task` (src/main.py): a falsy (absent/empty) document becomes
`{}`; otherwise `_id` (here: the pair's key) is re-exposed as a string `"id"`
field and datetime-valued fields become ISO strings. -/
def serialize_task (i : String) (d : Doc) : Doc :=
  if d.isEmpty then []
  else Doc.set (d.map (fun p => (p.1, convField p.1 p.2))) "id" (PyVal.vStr i)

/-- `TaskCreate` (src/main.py): the POST body after pydantic parsing.
`priority` defaults to `"medium"` when the field is absent; an explicit JSON
`null` parses to `none`. -/
structure TaskCreate where
  title : String
  priority : Option String := some "medium"
  due_date : Option Nat := none
  notes : Option String := none
deriving DecidableEq, Repr

/-- `TaskUpdate` (src/main.py): the PATCH body after pydantic parsing.  Each
field is `none` when absent from the body (excluded by
`model_dump(exclude_unset=True)`), `some none` when supplied as JSON `null`,
and `some (some x)` when supplied with value `x`. -/
structure TaskUpdate where
  title : Option (Option String) := none
  completed : Option (Option Bool) := none
  priority : Option (Option String) := none
  due_date : Option (Option Nat) := none
  notes : Option (Option String) := none
deriving DecidableEq, Repr

/-- One entry of `payload.model_dump(exclude_unset=True)` after the
`v is not None` filter: present exactly when the field was supplied with a
non-null value. -/
def fieldEntry {α : Type} (k : String) (o : Option (Option α)) (inj : α → PyVal) :
    List (String × PyVal) :=
  match o with
  | some (some x) => [(k, inj x)]
  | _ => []

/-- The `$set` document built by `update_task` (before `updated_at` is
added): the supplied, non-null fields in model declaration order. -/
def TaskUpdate.updateSet (p : TaskUpdate) : List (String × PyVal) :=
  fieldEntry "title" p.title PyVal.vStr ++
  fieldEntry "completed" p.completed PyVal.vBool ++
  fieldEntry "priority" p.priority PyVal.vStr ++
  fieldEntry "due_date" p.due_date PyVal.vDT ++
  fieldEntry "notes" p.notes PyVal.vStr

/-- HTTP outcome of a handler: a successful JSON body with its status code,
or a raised `HTTPException` with its status code and detail string. -/
inductive HTTPOut (α : Type) where
  | ok (status : Nat) (body : α)
  | err (status : Nat) (detail : String)
deriving DecidableEq, Repr

/-- A handler run: the HTTP outcome, the store after the run, and the number
of document-store operations performed. -/
structure Outcome (α : Type) where
  out : HTTPOut α
  store : Store
  ops : Nat
deriving DecidableEq, Repr

/-! ## Request handlers (src/main.py) -/

/-- `get_task` (src/main.py, GET /api/tasks/{id}). -/
def get_task (s : Store) (i : String) : Outcome Doc :=
  if ObjectId.is_valid i then
    match findOne s i with
    | some d =>
        if d.isEmpty then ⟨.err 404 "Task not found", s, 1⟩
        else ⟨.ok 200 (serialize_task i d), s, 1⟩
    | none => ⟨.err 404 "Task not found", s, 1⟩
  else ⟨.err 400 "Invalid task id", s, 0⟩

/-- `update_task` (src/main.py, PATCH /api/tasks/{id}). -/
def update_task (s : Store) (i : String) (p : TaskUpdate) (now : Nat) : Outcome Doc :=
  if ObjectId.is_valid i then
    if (TaskUpdate.updateSet p).isEmpty then get_task s i
    else
      let u := TaskUpdate.updateSet p ++ [("updated_at", PyVal.vDT now)]
      let r := updateOne s i u
      if r.2 = 0 then ⟨.err 404 "Task not found", s, 1⟩
      else
        match findOne r.1 i with
        | some d => ⟨.ok 200 (serialize_task i d), r.1, 2⟩
        | none => ⟨.ok 200 [], r.1, 2⟩
  else ⟨.err 400 "Invalid task id", s, 0⟩

/-- `delete_task` (src/main.py, DELETE /api/tasks/{id}); the route is
declared with `status_code=204`. -/
def delete_task (s : Store) (i : String) : Outcome Doc :=
  if ObjectId.is_valid i then
    let r := deleteOne s i
    if r.2 = 0 then ⟨.err 404 "Task not found", s, 1⟩
    else ⟨.ok 204 [("ok", PyVal.vBool true)], r.1, 1⟩
  else ⟨.err 400 "Invalid task id", s, 0⟩

/-- `toggle_task` (src/main.py, POST /api/tasks/{id}/toggle). -/
def toggle_task (s : Store) (i : String) (now : Nat) : Outcome Doc :=
  if ObjectId.is_valid i then
    match findOne s i with
    | some d =>
        if d.isEmpty then ⟨.err 404 "Task not found", s, 1⟩
        else
          let newVal := !(d.truthyGet "completed")
          let r := updateOne s i [("completed", PyVal.vBool newVal), ("updated_at", PyVal.vDT now)]
          match findOne r.1 i with
          | some d2 => ⟨.ok 200 (serialize_task i d2), r.1, 3⟩
          | none => ⟨.ok 200 [], r.1, 3⟩
    | none => ⟨.err 404 "Task not found", s, 1⟩
  else ⟨.err 400 "Invalid task id", s, 0⟩

/-- Python `payload.priority or "medium"`: `None` and `""` are falsy. -/
def pyOrMedium (p : Option String) : String :=
  match p with
  | some s => if s = "" then "medium" else s
  | none => "medium"

/-- The `Task(...)` record built by `create_task` (src/main.py).
Modelled from the spec: the `Task` schema itself lives in `schemas.py`,
which is not under `src/`; per the spec, optional fields are absent unless
supplied and `created_at`/`updated_at` are server-assigned. -/
def taskDocOf (p : TaskCreate) : Doc :=
  [("title", .vStr p.title), ("completed", .vBool false),
   ("priority", .vStr (pyOrMedium p.priority))] ++
  (match p.due_date with | some t => [("due_date", PyVal.vDT t)] | none => []) ++
  (match p.notes with | some s => [("notes", PyVal.vStr s)] | none => [])

/-- Modelled from the spec: `database.create_document` (`database.py`, not
under `src/`) inserts the record into the collection; the store assigns the
fresh identifier `newId` and `created_at` is stamped with the server clock. -/
def create_document (s : Store) (d : Doc) (newId : String) (now : Nat) : Store × String :=
  (s ++ [(newId, d.set "created_at" (.vDT now))], newId)

/-- `create_task` (src/main.py, POST /api/tasks, `status_code=201`). -/
def create_task (s : Store) (p : TaskCreate) (newId : String) (now : Nat) : Outcome Doc :=
  let task := taskDocOf p
  let r := create_document s task newId now
  match findOne r.1 r.2 with
  | some d => ⟨.ok 201 (serialize_task r.2 d), r.1, 2⟩
  | none => ⟨.ok 201 [], r.1, 2⟩

/-! ## Listing (src/main.py `list_tasks`) -/

/-- The sort key `d.get("created_at", datetime.min)`: `datetime.min` is tick
`0`.  (Python would raise if a stored `created_at` were not a datetime; the
model is faithful for stores whose `created_at` fields are datetimes.) -/
def sortKey (d : Doc) : Nat :=
  match d.get? "created_at" with
  | some (.vDT t) => t
  | _ => 0

/-- The ordering used by `sorted(docs, key=..., reverse=True)`: descending
`created_at`.  Python's sort is stable, as is `List.insertionSort`. -/
def byCreatedDesc (a b : String × Doc) : Prop := sortKey b.2 ≤ sortKey a.2

instance : DecidableRel byCreatedDesc :=
  fun a b => inferInstanceAs (Decidable (sortKey b.2 ≤ sortKey a.2))

instance : IsTotal (String × Doc) byCreatedDesc :=
  ⟨fun a b => le_total (sortKey b.2) (sortKey a.2)⟩

instance : IsTrans (String × Doc) byCreatedDesc :=
  ⟨fun _ _ _ h1 h2 => le_trans h2 h1⟩

/-- The sorted collection built by `list_tasks` before serialization.
Modelled from the spec for the fetch: `database.get_documents` (not under
`src/`) returns all records of the collection; the sort itself is
`src/main.py` line 86. -/
def listSorted (s : Store) : Store := List.insertionSort byCreatedDesc s

/-- `list_tasks` (src/main.py, GET /api/tasks). -/
def list_tasks (s : Store) : Outcome (List Doc) :=
  ⟨.ok 200 ((listSorted s).map (fun p => serialize_task p.1 p.2)), s, 1⟩

/-! ## Diagnostics (src/main.py `test_database`) -/

/-- Python string slicing `s[:n]`: the first `n` characters. -/
def strTrunc (s : String) (n : Nat) : String := ⟨s.data.take n⟩

/-- Modelled from the spec: the global `db` handle comes from `database.py`
(not under `src/`).  A connected handle has an optional `name` attribute and
a `list_collection_names()` call that either returns the collection names or
raises, which we model as `Except` with the exception's `str(e)`. -/
structure DbConn where
  name : Option String
  listCollectionNames : Except String (List String)

/-- The diagnostics payload assembled by `test_database`. -/
structure TestResponse where
  backend : String
  database : String
  database_url : Option String
  database_name : Option String
  connection_status : String
  collections : List String
deriving DecidableEq, Repr

/-- `test_database` (src/main.py, GET /test).  Returns the HTTP status and
the payload.  The handler never raises: the store call is inside
`try/except`, so FastAPI always answers 200.  (The outer `except` has no
remaining failure source once the store call is modelled.) -/
def test_database (db : Option DbConn) (urlSet : Bool) : Nat × TestResponse :=
  let r0 : TestResponse :=
    ⟨"✅ Running", "❌ Not Available", none, none, "Not Connected", []⟩
  match db with
  | some conn =>
      let r1 := { r0 with
        database := "✅ Available"
        database_url := some (if urlSet then "✅ Set" else "❌ Not Set")
        database_name := some (conn.name.getD "✅ Connected")
        connection_status := "Connected" }
      match conn.listCollectionNames with
      | .ok cols =>
          (200, { r1 with
            collections := cols.take 10
            database := "✅ Connected & Working" })
      | .error e =>
          (200, { r1 with
            database := "⚠️  Connected but Error: " ++ strTrunc e 50 })
  | none => (200, { r0 with database := "⚠️  Available but not initialized" })

/-- Modelled from the spec: the HTTP framework layer (FastAPI, outside this
repository) emits no response body for a 204 status, so the spec's
"204 no body" refers to the wire response, not the handler's return value. -/
def wireBody (status : Nat) (body : Doc) : Option Doc :=
  if status = 204 then none else some body

/-! ## Supporting lemmas about the update set and the store -/

theorem fieldEntry_keys {α : Type} (k : String) (o : Option (Option α)) (inj : α → PyVal) :
    List.Sublist ((fieldEntry k o inj).map Prod.fst) [k] := by
  match o with
  | none => exact List.nil_sublist _
  | some none => exact List.nil_sublist _
  | some (some x) => simp [fieldEntry]

theorem mem_fieldEntry {α : Type} {k k' : String} {o : Option (Option α)} {inj : α → PyVal}
    {v : PyVal} (h : (k', v) ∈ fieldEntry k o inj) :
    k' = k ∧ ∃ x, o = some (some x) ∧ v = inj x := by
  match o with
  | none => simp [fieldEntry] at h
  | some none => simp [fieldEntry] at h
  | some (some x) =>
      simp only [fieldEntry, List.mem_singleton] at h
      injection h with h1 h2
      exact ⟨h1, x, rfl, h2⟩

theorem updateSet_keys_sublist (p : TaskUpdate) :
    List.Sublist ((TaskUpdate.updateSet p).map Prod.fst)
      ["title", "completed", "priority", "due_date", "notes"] := by
  have h1 := fieldEntry_keys "title" p.title PyVal.vStr
  have h2 := fieldEntry_keys "completed" p.completed PyVal.vBool
  have h3 := fieldEntry_keys "priority" p.priority PyVal.vStr
  have h4 := fieldEntry_keys "due_date" p.due_date PyVal.vDT
  have h5 := fieldEntry_keys "notes" p.notes PyVal.vStr
  simpa [TaskUpdate.updateSet, List.map_append] using
    (((h1.append h2).append h3).append h4).append h5

theorem updateSet_keys_nodup (p : TaskUpdate) :
    ((TaskUpdate.updateSet p).map Prod.fst).Nodup :=
  List.Nodup.sublist (updateSet_keys_sublist p) (by decide)

theorem updated_at_not_mem_updateSet (p : TaskUpdate) :
    "updated_at" ∉ (TaskUpdate.updateSet p).map Prod.fst := by
  intro hm
  have := (updateSet_keys_sublist p).subset hm
  simp at this

theorem created_at_not_mem_updateSet (p : TaskUpdate) :
    "created_at" ∉ (TaskUpdate.updateSet p).map Prod.fst := by
  intro hm
  have := (updateSet_keys_sublist p).subset hm
  simp at this

theorem updateSet_no_null (p : TaskUpdate) (k : String) (v : PyVal)
    (hm : (k, v) ∈ TaskUpdate.updateSet p) : v ≠ PyVal.vNone := by
  simp only [TaskUpdate.updateSet, List.mem_append] at hm
  rcases hm with ((((h | h) | h) | h) | h) <;>
    · obtain ⟨-, x, -, hv⟩ := mem_fieldEntry h
      subst hv
      intro hc
      cases hc

theorem findOne_append_self (s : Store) (i : String) (d : Doc)
    (h : findOne s i = none) : findOne (s ++ [(i, d)]) i = some d := by
  induction s with
  | nil => simp [findOne]
  | cons p rest ih =>
      obtain ⟨j, d'⟩ := p
      by_cases hj : j = i
      · simp [findOne, hj] at h
      · simp only [findOne, hj, if_false] at h
        simp [findOne, hj, List.cons_append, ih h]

/-- `created_at` survives any `$set` whose keys avoid it, documentwise over
the whole collection. -/
theorem created_at_preserved_updateOne (s : Store) (i : String)
    (u : List (String × PyVal)) (j : String)
    (hu : "created_at" ∉ u.map Prod.fst) :
    (findOne (updateOne s i u).1 j).map (fun d => d.get? "created_at") =
      (findOne s j).map (fun d => d.get? "created_at") := by
  by_cases hj : j = i
  · subst hj
    cases hf : findOne s j with
    | none =>
        rw [updateOne_of_findOne_none s j u hf]
        simp [hf]
    | some d =>
        rw [(findOne_updateOne_self s j u d hf).1]
        simp [Doc.get?_setMany_not_mem u d _ hu]
  · rw [findOne_updateOne_ne s i j u hj]

/-! ## Claims -/

/-- C1: for every id-taking operation (get, partial update, toggle, delete),
a syntactically invalid path identifier yields status 400 with no store
operation performed and the store unchanged, while a valid identifier with
no matching record yields status 404 (with the store unchanged); the two
statuses are never interchanged. -/
theorem C1_id_validation (s : Store) (i : String) (p : TaskUpdate) (now : Nat) :
    (ObjectId.is_valid i = false →
      get_task s i = ⟨.err 400 "Invalid task id", s, 0⟩ ∧
      update_task s i p now = ⟨.err 400 "Invalid task id", s, 0⟩ ∧
      toggle_task s i now = ⟨.err 400 "Invalid task id", s, 0⟩ ∧
      delete_task s i = ⟨.err 400 "Invalid task id", s, 0⟩) ∧
    (ObjectId.is_valid i = true → findOne s i = none →
      (get_task s i).out = .err 404 "Task not found" ∧ (get_task s i).store = s ∧
      (update_task s i p now).out = .err 404 "Task not found" ∧
        (update_task s i p now).store = s ∧
      (toggle_task s i now).out = .err 404 "Task not found" ∧
        (toggle_task s i now).store = s ∧
      (delete_task s i).out = .err 404 "Task not found" ∧
        (delete_task s i).store = s) := by
  constructor
  · intro h
    refine ⟨?_, ?_, ?_, ?_⟩ <;> simp [get_task, update_task, toggle_task, delete_task, h]
  · intro hv hf
    have hget : get_task s i = ⟨.err 404 "Task not found", s, 1⟩ := by
      simp [get_task, hv, hf]
    have hupd : (update_task s i p now).out = .err 404 "Task not found" ∧
        (update_task s i p now).store = s := by
      by_cases hu : (TaskUpdate.updateSet p).isEmpty
      · simp [update_task, hv, hu, hget]
      · simp [update_task, hv, hu, updateOne_of_findOne_none s i _ hf]
    have htog : (toggle_task s i now).out = .err 404 "Task not found" ∧
        (toggle_task s i now).store = s := by
      simp [toggle_task, hv, hf]
    have hdel : (delete_task s i).out = .err 404 "Task not found" ∧
        (delete_task s i).store = s := by
      simp [delete_task, hv, deleteOne_of_findOne_none s i hf]
    exact ⟨by simp [hget], by simp [hget], hupd.1, hupd.2, htog.1, htog.2, hdel.1, hdel.2⟩

theorem C1_id_validation_witness :
    (get_task [] "xyz" = ⟨.err 400 "Invalid task id", [], 0⟩ ∧
      toggle_task [] "xyz" 0 = ⟨.err 400 "Invalid task id", [], 0⟩) ∧
    ((get_task [] "0123456789abcdef01234567").out = .err 404 "Task not found" ∧
      (delete_task [] "0123456789abcdef01234567").out = .err 404 "Task not found") :=
  ⟨⟨((C1_id_validation [] "xyz" {} 0).1 (by decide)).1,
    ((C1_id_validation [] "xyz" {} 0).1 (by decide)).2.2.1⟩,
   ⟨((C1_id_validation [] "0123456789abcdef01234567" {} 0).2 (by decide) rfl).1,
    ((C1_id_validation [] "0123456789abcdef01234567" {} 0).2 (by decide) rfl).2.2.2.2.2.2.1⟩⟩

/-- C2: creating a task builds and inserts a record with `completed = false`
(the request model has no completed field at all), `priority = "medium"`
whenever the supplied priority is absent or empty, and a server-stamped
`created_at`; the new record is appended to the store under the fresh id. -/
theorem C2_create_defaults (s : Store) (p : TaskCreate) (newId : String) (now : Nat)
    (hfresh : findOne s newId = none) :
    (create_task s p newId now).out =
      .ok 201 (serialize_task newId (Doc.set (taskDocOf p) "created_at" (.vDT now))) ∧
    (create_task s p newId now).store =
      s ++ [(newId, Doc.set (taskDocOf p) "created_at" (.vDT now))] ∧
    (Doc.set (taskDocOf p) "created_at" (.vDT now)).get? "completed" =
      some (.vBool false) ∧
    ((p.priority = none ∨ p.priority = some "") →
      (Doc.set (taskDocOf p) "created_at" (.vDT now)).get? "priority" =
        some (.vStr "medium")) ∧
    (Doc.set (taskDocOf p) "created_at" (.vDT now)).get? "created_at" =
      some (.vDT now) := by
  have hins : findOne (s ++ [(newId, Doc.set (taskDocOf p) "created_at" (.vDT now))]) newId
      = some (Doc.set (taskDocOf p) "created_at" (.vDT now)) :=
    findOne_append_self s newId _ hfresh
  refine ⟨?_, ?_, ?_, ?_, ?_⟩
  · simp [create_task, create_document, hins]
  · simp [create_task, create_document, hins]
  · rw [Doc.get?_set_ne _ _ _ _ (by decide)]
    simp [taskDocOf, Doc.get?]
  · intro hp
    rw [Doc.get?_set_ne _ _ _ _ (by decide)]
    rcases hp with hp | hp <;> simp [taskDocOf, Doc.get?, pyOrMedium, hp]
  · exact Doc.get?_set_self _ _ _

theorem C2_create_defaults_witness :
    (create_task [] { title := "Buy gifts", priority := some "" } "0123456789abcdef01234567" 9).store =
      [("0123456789abcdef01234567",
        [("title", PyVal.vStr "Buy gifts"), ("completed", PyVal.vBool false),
         ("priority", PyVal.vStr "medium"), ("created_at", PyVal.vDT 9)])] ∧
    (Doc.set (taskDocOf { title := "Buy gifts", priority := some "" }) "created_at"
        (.vDT 9)).get? "priority" = some (.vStr "medium") := by
  have h := C2_create_defaults [] { title := "Buy gifts", priority := some "" }
    "0123456789abcdef01234567" 9 rfl
  exact ⟨by rw [h.2.1]; decide, h.2.2.2.1 (Or.inr rfl)⟩

/-- C5: a partial update whose body supplies no non-null field behaves
exactly as a Get on the same identifier — same outcome object — and leaves
the store unchanged. -/
theorem C5_noop_update_is_get (s : Store) (i : String) (p : TaskUpdate) (now : Nat)
    (h : TaskUpdate.updateSet p = []) :
    update_task s i p now = get_task s i ∧ (update_task s i p now).store = s := by
  have heq : update_task s i p now = get_task s i := by
    by_cases hv : ObjectId.is_valid i
    · simp [update_task, hv, h, get_task]
    · simp [update_task, hv, get_task]
  refine ⟨heq, ?_⟩
  rw [heq]
  by_cases hv : ObjectId.is_valid i
  · simp only [get_task, hv, if_true]
    cases findOne s i with
    | none => rfl
    | some d => by_cases hd : d.isEmpty <;> simp [hd]
  · simp [get_task, hv]

theorem C5_noop_update_is_get_witness :
    update_task [("0123456789abcdef01234567", [("title", PyVal.vStr "t")])]
        "0123456789abcdef01234567" { title := some none, completed := some none } 5 =
      get_task [("0123456789abcdef01234567", [("title", PyVal.vStr "t")])]
        "0123456789abcdef01234567" :=
  (C5_noop_update_is_get _ _ _ 5 (by decide)).1

/-- C6: `created_at` is never part of the update set of the partial-update
handler or of the toggle handler, and consequently no record's `created_at`
is modified by either operation, whichever record and identifier are
involved. -/
theorem C6_created_at_immutable (s : Store) (i j : String) (p : TaskUpdate) (now : Nat) :
    ((TaskUpdate.updateSet p).all (fun e => !(e.1 == "created_at"))) = true ∧
    (findOne (update_task s i p now).store j).map (fun d => d.get? "created_at") =
      (findOne s j).map (fun d => d.get? "created_at") ∧
    (findOne (toggle_task s i now).store j).map (fun d => d.get? "created_at") =
      (findOne s j).map (fun d => d.get? "created_at") := by
  refine ⟨?_, ?_, ?_⟩
  · rw [List.all_eq_true]
    intro e he
    have hk : e.1 ∈ ["title", "completed", "priority", "due_date", "notes"] :=
      (updateSet_keys_sublist p).subset (List.mem_map_of_mem Prod.fst he)
    simp only [List.mem_cons, List.not_mem_nil, or_false] at hk
    rcases hk with h | h | h | h | h <;> simp [h]
  · by_cases hv : ObjectId.is_valid i
    · by_cases hu : (TaskUpdate.updateSet p).isEmpty
      · have : (update_task s i p now).store = s := by
          simp only [update_task, hv, if_true, hu, get_task]
          cases findOne s i with
          | none => rfl
          | some d => by_cases hd : d.isEmpty <;> simp [hd]
        rw [this]
      · have hkeys : "created_at" ∉
            ((TaskUpdate.updateSet p ++ [("updated_at", PyVal.vDT now)]).map Prod.fst) := by
          simp only [List.map_append, List.mem_append]
          rintro (hm | hm)
          · exact created_at_not_mem_updateSet p hm
          · simp at hm
        cases hf : findOne s i with
        | none =>
            have : (update_task s i p now).store = s := by
              simp [update_task, hv, hu, updateOne_of_findOne_none s i _ hf]
            rw [this]
        | some d =>
            have hm := findOne_updateOne_self s i
              (TaskUpdate.updateSet p ++ [("updated_at", PyVal.vDT now)]) d hf
            have : (update_task s i p now).store =
                (updateOne s i (TaskUpdate.updateSet p ++ [("updated_at", PyVal.vDT now)])).1 := by
              simp [update_task, hv, hu, hm.2, hm.1]
            rw [this]
            exact created_at_preserved_updateOne s i _ j hkeys
    · simp [update_task, hv]
  · by_cases hv : ObjectId.is_valid i
    · cases hf : findOne s i with
      | none => simp [toggle_task, hv, hf]
      | some d =>
          by_cases hd : d.isEmpty
          · simp [toggle_task, hv, hf, hd]
          · have hm := findOne_updateOne_self s i
              [("completed", PyVal.vBool (!(d.truthyGet "completed"))),
               ("updated_at", PyVal.vDT now)] d hf
            have : (toggle_task s i now).store =
                (updateOne s i
                  [("completed", PyVal.vBool (!(d.truthyGet "completed"))),
                   ("updated_at", PyVal.vDT now)]).1 := by
              simp [toggle_task, hv, hf, hd, hm.1]
            rw [this]
            exact created_at_preserved_updateOne s i _ j (by simp)
    · simp [toggle_task, hv]

/-- Store used to refute C3 as stated: one record lacking `created_at`
listed before one whose `created_at` is `datetime.min` (tick 0). -/
def c3cexStore : Store :=
  [("cccccccccccccccccccccccc", [("title", PyVal.vStr "lacks-created-at")]),
   ("dddddddddddddddddddddddd",
     [("title", PyVal.vStr "has-min"), ("created_at", PyVal.vDT 0)])]

/-- C3 counterexample: in a store holding a record without `created_at`
followed by a record whose `created_at` equals the earliest possible time
(`datetime.min`), both sort keys tie, Python's stable sort keeps store
order, and the record lacking `created_at` is listed BEFORE a record that
has one — contradicting the claim that it appears after every record with a
`created_at`. -/
theorem C3_list_sorted_cex :
    Doc.get? [("title", PyVal.vStr "lacks-created-at")] "created_at" = none ∧
    Doc.get? [("title", PyVal.vStr "has-min"), ("created_at", PyVal.vDT 0)] "created_at" =
      some (PyVal.vDT 0) ∧
    (list_tasks c3cexStore).out = .ok 200
      [serialize_task "cccccccccccccccccccccccc" [("title", PyVal.vStr "lacks-created-at")],
       serialize_task "dddddddddddddddddddddddd"
         [("title", PyVal.vStr "has-min"), ("created_at", PyVal.vDT 0)]] := by
  refine ⟨rfl, by decide, ?_⟩
  have h : listSorted c3cexStore = c3cexStore := by decide
  show HTTPOut.ok 200 ((listSorted c3cexStore).map (fun q => serialize_task q.1 q.2)) = _
  rw [h]
  decide

/-- C3 (amended): `list_tasks` returns the whole store serialized in a
stable sort by `created_at` descending, where a missing `created_at` sorts
as the earliest possible time.  Hence a record whose key is strictly larger
appears strictly earlier; in particular a record lacking `created_at`
appears after every record whose `created_at` is strictly later than the
earliest representable time.  (A record whose `created_at` equals
`datetime.min` ties with a record lacking the field, and the tie keeps
store order.) -/
theorem C3_list_sorted (s : Store) :
    list_tasks s = ⟨.ok 200 ((listSorted s).map (fun q => serialize_task q.1 q.2)), s, 1⟩ ∧
    (listSorted s).Perm s ∧
    List.Pairwise byCreatedDesc (listSorted s) ∧
    (∀ i j : Fin (listSorted s).length,
      sortKey ((listSorted s).get i).2 < sortKey ((listSorted s).get j).2 →
      (j : Nat) < (i : Nat)) ∧
    (∀ i j : Fin (listSorted s).length,
      Doc.get? ((listSorted s).get i).2 "created_at" = none →
      ∀ t : Nat, 0 < t →
      Doc.get? ((listSorted s).get j).2 "created_at" = some (PyVal.vDT t) →
      (j : Nat) < (i : Nat)) := by
  have hpair : List.Pairwise byCreatedDesc (listSorted s) :=
    List.sorted_insertionSort byCreatedDesc s
  have hget := List.pairwise_iff_get.mp hpair
  have hpos : ∀ i j : Fin (listSorted s).length,
      sortKey ((listSorted s).get i).2 < sortKey ((listSorted s).get j).2 →
      (j : Nat) < (i : Nat) := by
    intro i j hlt
    by_contra hc
    push_neg at hc
    rcases Nat.lt_or_ge (i : Nat) (j : Nat) with hij | hij
    · exact absurd (hget i j hij) (not_le.mpr hlt)
    · have : (i : Nat) = (j : Nat) := Nat.le_antisymm hc hij
      rw [Fin.val_injective this] at hlt
      exact lt_irrefl _ hlt
  refine ⟨rfl, List.perm_insertionSort byCreatedDesc s, hpair, hpos, ?_⟩
  intro i j hi t ht hj
  apply hpos
  have h1 : sortKey ((listSorted s).get i).2 = 0 := by rw [sortKey, hi]
  have h2 : sortKey ((listSorted s).get j).2 = t := by rw [sortKey, hj]
  rw [h1, h2]
  exact ht

/-- Store for the C3 witness: a record lacking `created_at` follows one
created strictly after tick 0. -/
def c3demoStore : Store :=
  [("aaaaaaaaaaaaaaaaaaaaaaaa", [("title", PyVal.vStr "older-missing")]),
   ("bbbbbbbbbbbbbbbbbbbbbbbb", [("title", PyVal.vStr "newer"), ("created_at", PyVal.vDT 5)])]

theorem C3_list_sorted_witness :
    Doc.get? ((listSorted c3demoStore).get ⟨1, by decide⟩).2 "created_at" = none ∧
    Doc.get? ((listSorted c3demoStore).get ⟨0, by decide⟩).2 "created_at" =
      some (PyVal.vDT 5) ∧
    (0 : Nat) < 1 := by
  refine ⟨by decide, by decide, ?_⟩
  exact (C3_list_sorted c3demoStore).2.2.2.2 ⟨1, by decide⟩ ⟨0, by decide⟩
    (by decide) 5 (by decide) (by decide)

/-- C4 counterexample: PATCHing `notes` with the empty string (a non-null
value, so it passes the `v is not None` filter) overwrites the stored
non-empty notes with `""` — the update path CAN clear a field to empty,
refuting the claim's "can never clear a field to null/empty". -/
theorem C4_partial_update_cex :
    Doc.get? [("title", PyVal.vStr "Buy gifts"), ("notes", PyVal.vStr "keep me"),
              ("created_at", PyVal.vDT 3)] "notes" = some (PyVal.vStr "keep me") ∧
    TaskUpdate.updateSet { notes := some (some "") } = [("notes", PyVal.vStr "")] ∧
    findOne
      (update_task
        [("0123456789abcdef01234567",
          [("title", PyVal.vStr "Buy gifts"), ("notes", PyVal.vStr "keep me"),
           ("created_at", PyVal.vDT 3)])]
        "0123456789abcdef01234567" { notes := some (some "") } 7).store
      "0123456789abcdef01234567" =
      some [("title", PyVal.vStr "Buy gifts"), ("notes", PyVal.vStr ""),
            ("created_at", PyVal.vDT 3), ("updated_at", PyVal.vDT 7)] := by
  decide

/-- C4 (amended): on an existing record, a non-empty partial update applies
exactly the supplied non-null fields plus `updated_at`; every field omitted
or supplied as null keeps its stored value; the null sentinel itself is
never written, so a PATCH can never clear a field to null — though a
supplied empty string is a real value and is stored. -/
theorem C4_partial_update_frame (s : Store) (i : String) (p : TaskUpdate) (now : Nat)
    (d : Doc) (hv : ObjectId.is_valid i = true) (hf : findOne s i = some d)
    (hne : (TaskUpdate.updateSet p).isEmpty = false) :
    ∃ d', findOne (update_task s i p now).store i = some d' ∧
      (update_task s i p now).out = .ok 200 (serialize_task i d') ∧
      d'.get? "updated_at" = some (.vDT now) ∧
      (∀ k v, (k, v) ∈ TaskUpdate.updateSet p → d'.get? k = some v) ∧
      (∀ k, k ∉ (TaskUpdate.updateSet p).map Prod.fst → k ≠ "updated_at" →
        d'.get? k = d.get? k) ∧
      (∀ k v, (k, v) ∈ TaskUpdate.updateSet p → v ≠ PyVal.vNone) := by
  set u := TaskUpdate.updateSet p ++ [("updated_at", PyVal.vDT now)] with hu
  have hnd : (u.map Prod.fst).Nodup := by
    rw [hu, List.map_append]
    exact List.Nodup.append (updateSet_keys_nodup p) (by simp)
      (by
        intro a ha hb
        simp only [List.map_cons, List.map_nil, List.mem_singleton] at hb
        subst hb
        exact updated_at_not_mem_updateSet p ha)
  have hmatch := findOne_updateOne_self s i u d hf
  have hstore : (update_task s i p now).store = (updateOne s i u).1 := by
    simp [update_task, hv, hne, hu, hmatch.2, hmatch.1]
  have hout : (update_task s i p now).out = .ok 200 (serialize_task i (d.setMany u)) := by
    simp [update_task, hv, hne, hu, hmatch.2, hmatch.1]
  refine ⟨d.setMany u, by rw [hstore]; exact hmatch.1, hout, ?_, ?_, ?_, updateSet_no_null p⟩
  · exact Doc.get?_setMany_mem u d _ _ hnd (by rw [hu]; simp)
  · intro k v hm
    exact Doc.get?_setMany_mem u d k v hnd (by rw [hu]; exact List.mem_append_left _ hm)
  · intro k hk hk'
    apply Doc.get?_setMany_not_mem
    rw [hu, List.map_append]
    simp only [List.mem_append]
    rintro (hm | hm)
    · exact hk hm
    · simp only [List.map_cons, List.map_nil, List.mem_singleton] at hm
      exact hk' hm

theorem C4_partial_update_frame_witness :
    (∃ d', findOne
        (update_task [("0123456789abcdef01234567", [("title", PyVal.vStr "t"),
           ("completed", PyVal.vBool false)])]
          "0123456789abcdef01234567" { completed := some (some true) } 6).store
        "0123456789abcdef01234567" = some d' ∧
      d'.get? "updated_at" = some (.vDT 6) ∧
      d'.get? "completed" = some (.vBool true) ∧
      d'.get? "title" = some (.vStr "t")) := by
  obtain ⟨d', h1, h2, h3, h4, h5, h6⟩ :=
    C4_partial_update_frame
      [("0123456789abcdef01234567", [("title", PyVal.vStr "t"), ("completed", PyVal.vBool false)])]
      "0123456789abcdef01234567" { completed := some (some true) } 6
      [("title", PyVal.vStr "t"), ("completed", PyVal.vBool false)]
      (by decide) rfl (by decide)
  exact ⟨d', h1, h3, h4 "completed" (PyVal.vBool true) (by decide),
    h5 "title" (by decide) (by decide)⟩

/-- One toggle on an existing, non-empty record: the store becomes the
collection with `completed` flipped (by truthiness) and `updated_at`
stamped on that record. -/
theorem toggle_step (s : Store) (i : String) (now : Nat) (d : Doc)
    (hv : ObjectId.is_valid i = true) (hf : findOne s i = some d)
    (hne : d.isEmpty = false) :
    (toggle_task s i now).store =
      (updateOne s i [("completed", PyVal.vBool (!(d.truthyGet "completed"))),
                      ("updated_at", PyVal.vDT now)]).1 ∧
    findOne (toggle_task s i now).store i =
      some ((d.set "completed" (PyVal.vBool (!(d.truthyGet "completed")))).set
        "updated_at" (PyVal.vDT now)) := by
  have hm := findOne_updateOne_self s i
    [("completed", PyVal.vBool (!(d.truthyGet "completed"))),
     ("updated_at", PyVal.vDT now)] d hf
  have hs : (toggle_task s i now).store =
      (updateOne s i [("completed", PyVal.vBool (!(d.truthyGet "completed"))),
                      ("updated_at", PyVal.vDT now)]).1 := by
    simp [toggle_task, hv, hf, hne, hm.1]
  refine ⟨hs, ?_⟩
  rw [hs]
  exact hm.1

/-- C7: toggling an existing task twice restores the original `completed`
flag, and the two toggles stamp `updated_at` with the first and the second
clock value respectively, so with a monotone clock the second stamp is no
earlier than the first. -/
theorem C7_toggle_twice (s : Store) (i : String) (t1 t2 : Nat) (b : Bool) (d : Doc)
    (hv : ObjectId.is_valid i = true) (hf : findOne s i = some d)
    (hc : d.get? "completed" = some (PyVal.vBool b)) (hmono : t1 ≤ t2) :
    ∃ d1 d2,
      findOne (toggle_task s i t1).store i = some d1 ∧
      findOne (toggle_task (toggle_task s i t1).store i t2).store i = some d2 ∧
      d1.get? "completed" = some (PyVal.vBool (!b)) ∧
      d2.get? "completed" = some (PyVal.vBool b) ∧
      d1.get? "updated_at" = some (PyVal.vDT t1) ∧
      d2.get? "updated_at" = some (PyVal.vDT t2) ∧
      t1 ≤ t2 := by
  have hne : d.isEmpty = false := Doc.isEmpty_eq_false_of_get? hc
  have htr : d.truthyGet "completed" = b := by
    simp [Doc.truthyGet, hc, PyVal.truthy]
  obtain ⟨hs1, hf1⟩ := toggle_step s i t1 d hv hf hne
  set d1 := (d.set "completed" (PyVal.vBool (!(d.truthyGet "completed")))).set
    "updated_at" (PyVal.vDT t1) with hd1
  have hc1 : d1.get? "completed" = some (PyVal.vBool (!b)) := by
    rw [hd1, Doc.get?_set_ne _ _ _ _ (by decide), Doc.get?_set_self, htr]
  have hu1 : d1.get? "updated_at" = some (PyVal.vDT t1) := Doc.get?_set_self _ _ _
  have hne1 : d1.isEmpty = false := Doc.isEmpty_eq_false_of_get? hc1
  have htr1 : d1.truthyGet "completed" = !b := by
    simp [Doc.truthyGet, hc1, PyVal.truthy]
  obtain ⟨hs2, hf2⟩ := toggle_step (toggle_task s i t1).store i t2 d1 hv hf1 hne1
  refine ⟨d1, _, hf1, hf2, hc1, ?_, hu1, Doc.get?_set_self _ _ _, hmono⟩
  rw [Doc.get?_set_ne _ _ _ _ (by decide), Doc.get?_set_self, htr1, Bool.not_not]

theorem C7_toggle_twice_witness :
    ∃ d1 d2,
      findOne (toggle_task [("0123456789abcdef01234567",
          [("title", PyVal.vStr "t"), ("completed", PyVal.vBool false)])]
          "0123456789abcdef01234567" 4).store "0123456789abcdef01234567" = some d1 ∧
      findOne (toggle_task (toggle_task [("0123456789abcdef01234567",
          [("title", PyVal.vStr "t"), ("completed", PyVal.vBool false)])]
          "0123456789abcdef01234567" 4).store "0123456789abcdef01234567" 9).store
        "0123456789abcdef01234567" = some d2 ∧
      d1.get? "completed" = some (PyVal.vBool true) ∧
      d2.get? "completed" = some (PyVal.vBool false) ∧
      d1.get? "updated_at" = some (PyVal.vDT 4) ∧
      d2.get? "updated_at" = some (PyVal.vDT 9) ∧
      (4 : Nat) ≤ 9 := by
  have h := C7_toggle_twice [("0123456789abcdef01234567",
      [("title", PyVal.vStr "t"), ("completed", PyVal.vBool false)])]
    "0123456789abcdef01234567" 4 9 false
    [("title", PyVal.vStr "t"), ("completed", PyVal.vBool false)]
    (by decide) rfl (by decide) (by decide)
  simpa using h

/-- C10: toggling an existing record writes `completed = not (truthiness of
the stored completed field, defaulting to false when absent)`; in
particular, when the field is absent or holds any falsy value, the new
stored value is `true`. -/
theorem C10_toggle_truthiness (s : Store) (i : String) (now : Nat) (d : Doc)
    (hv : ObjectId.is_valid i = true) (hf : findOne s i = some d)
    (hne : d.isEmpty = false) :
    ∃ d', findOne (toggle_task s i now).store i = some d' ∧
      d'.get? "completed" = some (PyVal.vBool (!(d.truthyGet "completed"))) ∧
      ((d.get? "completed" = none ∨
        (∃ v, d.get? "completed" = some v ∧ v.truthy = false)) →
        d'.get? "completed" = some (PyVal.vBool true)) := by
  obtain ⟨hs, hfd⟩ := toggle_step s i now d hv hf hne
  refine ⟨_, hfd, ?_, ?_⟩
  · rw [Doc.get?_set_ne _ _ _ _ (by decide), Doc.get?_set_self]
  · rintro (h | ⟨v, hv', htv⟩) <;>
      rw [Doc.get?_set_ne _ _ _ _ (by decide), Doc.get?_set_self]
    · simp [Doc.truthyGet, h]
    · simp [Doc.truthyGet, hv', htv]

theorem C10_toggle_truthiness_witness :
    ∃ d', findOne (toggle_task [("0123456789abcdef01234567",
        [("title", PyVal.vStr "no completed field")])]
        "0123456789abcdef01234567" 2).store "0123456789abcdef01234567" = some d' ∧
      d'.get? "completed" = some (PyVal.vBool true) := by
  obtain ⟨d', h1, h2, h3⟩ := C10_toggle_truthiness
    [("0123456789abcdef01234567", [("title", PyVal.vStr "no completed field")])]
    "0123456789abcdef01234567" 2 [("title", PyVal.vStr "no completed field")]
    (by decide) rfl (by decide)
  exact ⟨d', h1, h3 (Or.inl (by decide))⟩

/-- C8: deleting an existing task through a well-formed identifier removes
exactly that record (identifiers are unique in the store), answers with
status 204, and the wire-level response has no body (the framework strips
the handler's return value for a 204 status). -/
theorem C8_delete (s : Store) (i : String) (d : Doc)
    (hnd : (s.map Prod.fst).Nodup)
    (hv : ObjectId.is_valid i = true) (hf : findOne s i = some d) :
    (delete_task s i).out = .ok 204 [("ok", PyVal.vBool true)] ∧
    wireBody 204 [("ok", PyVal.vBool true)] = none ∧
    (delete_task s i).store = (deleteOne s i).1 ∧
    findOne (delete_task s i).store i = none ∧
    (∀ j, j ≠ i → findOne (delete_task s i).store j = findOne s j) ∧
    (delete_task s i).store.length + 1 = s.length := by
  have hcount := deleteOne_count_of_findOne_some s i d hf
  have hs : (delete_task s i).store = (deleteOne s i).1 := by
    simp [delete_task, hv, hcount]
  have hout : (delete_task s i).out = .ok 204 [("ok", PyVal.vBool true)] := by
    simp [delete_task, hv, hcount]
  refine ⟨hout, rfl, hs, ?_, ?_, ?_⟩
  · rw [hs]
    exact findOne_deleteOne_self s i hnd
  · intro j hj
    rw [hs]
    exact findOne_deleteOne_ne s i j hj
  · rw [hs]
    exact length_deleteOne_of_findOne_some s i d hf

theorem C8_delete_witness :
    (delete_task [("0123456789abcdef01234567", [("title", PyVal.vStr "t")])]
        "0123456789abcdef01234567").out = .ok 204 [("ok", PyVal.vBool true)] ∧
    wireBody 204 [("ok", PyVal.vBool true)] = none ∧
    findOne (delete_task [("0123456789abcdef01234567", [("title", PyVal.vStr "t")])]
        "0123456789abcdef01234567").store "0123456789abcdef01234567" = none := by
  obtain ⟨h1, h2, h3, h4, h5, h6⟩ := C8_delete
    [("0123456789abcdef01234567", [("title", PyVal.vStr "t")])]
    "0123456789abcdef01234567" [("title", PyVal.vStr "t")]
    (by decide) (by decide) rfl
  exact ⟨h1, h2, h4⟩

/-- C9: the diagnostics endpoint always answers 200; a store error while
listing collections is caught and reported inside the payload as the
exception text truncated to at most 50 characters (with a fixed prefix),
never as an HTTP error; the reported collections list never exceeds 10
names. -/
theorem C9_diagnostics (db : Option DbConn) (urlSet : Bool) :
    (test_database db urlSet).1 = 200 ∧
    (test_database db urlSet).2.collections.length ≤ 10 ∧
    (∀ conn e, db = some conn → conn.listCollectionNames = Except.error e →
      (test_database db urlSet).2.database =
        "⚠️  Connected but Error: " ++ strTrunc e 50 ∧
      (strTrunc e 50).length ≤ 50) := by
  refine ⟨?_, ?_, ?_⟩
  · cases db with
    | none => rfl
    | some conn => cases hl : conn.listCollectionNames <;> simp [test_database, hl]
  · cases db with
    | none => simp [test_database]
    | some conn =>
        cases hl : conn.listCollectionNames with
        | error e => simp [test_database, hl]
        | ok cols =>
            simp only [test_database, hl]
            exact le_trans (List.length_take_le 10 cols) (le_refl 10)
  · intro conn e hdb hl
    subst hdb
    constructor
    · simp [test_database, hl]
    · have : (strTrunc e 50).length = (e.data.take 50).length := rfl
      rw [this]
      exact le_trans (List.length_take_le 50 e.data) (le_refl 50)

theorem C9_diagnostics_witness :
    (test_database (some ⟨some "appdb",
        Except.error "ServerSelectionTimeoutError: could not reach mongodb cluster at all"⟩)
      true).1 = 200 ∧
    (test_database (some ⟨some "appdb",
        Except.error "ServerSelectionTimeoutError: could not reach mongodb cluster at all"⟩)
      true).2.database =
      "⚠️  Connected but Error: " ++
        strTrunc "ServerSelectionTimeoutError: could not reach mongodb cluster at all" 50 := by
  have h := C9_diagnostics (some ⟨some "appdb",
    Except.error "ServerSelectionTimeoutError: could not reach mongodb cluster at all"⟩) true
  exact ⟨h.1, (h.2.2 _ _ rfl rfl).1⟩
